import Mathlib

/-!
# Skribbl clone starter: server room store and client player list

A shallow embedding of `src/server/index.js` (the Socket.io event handlers and
the in-memory `rooms` map) and of the player-list handlers of
`src/client/src/App.jsx`.

* A JavaScript `Map` with string keys is an insertion-ordered association list.
* A handler is a function on `Conn`: the `rooms` map, the `socket` the handler
  closes over, and the ordered trace of effects performed so far.
* Every statement of a handler body is one primitive on `Conn`, applied in
  source order.
-/

namespace Skribbl

/-! ## JavaScript `Map` -/

/-- A JavaScript `Map` keyed by strings: entries in insertion order. -/
abbrev JsMap (α : Type) := List (String × α)

namespace JsMap

variable {α : Type}

/-- `m.has(k)`. -/
def has (m : JsMap α) (k : String) : Bool :=
  m.any (fun e => e.1 == k)

/-- `m.get(k)`: the value bound to `k`, `none` standing for `undefined`. -/
def get : JsMap α → String → Option α
  | [], _ => none
  | (k', v) :: rest, k => if k' = k then some v else get rest k

/-- `m.delete(k)`: no entry with key `k` is left. -/
def delete (m : JsMap α) (k : String) : JsMap α :=
  m.filter (fun e => e.1 != k)

/-- `m.set(k, v)`: an existing key keeps its position, a new key goes last. -/
def set : JsMap α → String → α → JsMap α
  | [], k, v => [(k, v)]
  | (k', v') :: rest, k, v =>
    if k' = k then (k, v) :: rest else (k', v') :: set rest k v

/-- `m.size`. -/
def size (m : JsMap α) : Nat := m.length

/-- The keys of the map, in insertion order. -/
def keys (m : JsMap α) : List String := m.map Prod.fst

end JsMap

/-! ## Data carried by the server -/

/-- The `draw` payload `{ x0, y0, x1, y1, color, lineWidth }` the canvas sends.
No handler reads its fields; the numbers are carried as integers. -/
structure DrawStroke where
  x0 : Int
  y0 : Int
  x1 : Int
  y1 : Int
  color : String
  lineWidth : Int
  deriving DecidableEq, Repr

/-- A value of a room's `players` map, as the client reads it back
(`data.username`, `data.score`). -/
structure Player where
  username : String
  score : Option Int
  deriving DecidableEq, Repr

/-- A value of `rooms`: `{ players: Map, drawingHistory: [], currentDrawer: null }`. -/
structure Room where
  players : JsMap Player
  drawingHistory : List DrawStroke
  currentDrawer : Option String
  deriving DecidableEq, Repr

/-- The fields of `socket.data` the handlers read; `none` is `undefined`. -/
structure SocketData where
  roomId : Option String
  username : Option String
  deriving DecidableEq, Repr

/-- A connected socket: its id and its `data` object. -/
structure Socket where
  id : String
  data : SocketData
  deriving DecidableEq, Repr

/-- The argument of an emitted event. -/
inductive Payload where
  | none
  | str (s : String)
  | stroke (d : DrawStroke)
  | playerJoined (id username : String)
  | roomState (players : List (String × Player)) (drawingHistory : List DrawStroke)
  deriving DecidableEq, Repr

/-- Whom an emit is addressed to. `roomExcept r s` is `socket.to(r)` on the
socket `s`: the Socket.io room `r` without the sender. `only s` is `socket.emit`. -/
inductive Target where
  | roomExcept (room : String) (sender : String)
  | only (sid : String)
  deriving DecidableEq, Repr

/-- One observable effect of a handler, in the order performed. -/
inductive Effect where
  | log (msg : String)
  | emit (target : Target) (event : String) (payload : Payload)
  | playersDelete (roomId : String) (sid : String)
  | roomsDelete (roomId : String)
  deriving DecidableEq, Repr

/-- What a handler closure sees: the module-level `rooms`, its `socket`, and
the effects performed so far. -/
structure Conn where
  rooms : JsMap Room
  socket : Socket
  trace : List Effect
  deriving DecidableEq, Repr

/-! ## JavaScript coercions used by the handlers -/

/-- The test `if (x)` on an optional string: `undefined` and `""` are falsy. -/
def truthy : Option String → Option String
  | some s => if s = "" then none else some s
  | none => none

/-- The expression `x || dflt` on an optional string. -/
def orElse (x : Option String) (dflt : String) : String :=
  match truthy x with
  | some s => s
  | none => dflt

/-- A template-literal hole on an optional string. -/
def jsString : Option String → String
  | some s => s
  | none => "undefined"

/-! ## Handler primitives -/

/-- `console.log(msg)`. -/
def consoleLog (msg : String) (c : Conn) : Conn :=
  { c with trace := c.trace ++ [Effect.log msg] }

/-- `socket.to(roomId).emit(event, payload)`. -/
def socketToEmit (roomId event : String) (payload : Payload) (c : Conn) : Conn :=
  { c with trace := c.trace ++ [Effect.emit (Target.roomExcept roomId c.socket.id) event payload] }

/-- `room.players.delete(sid)` on the room object `room` stored under `roomId`:
the object is mutated in place, so the entry of `rooms` keeps its position. -/
def playersDelete (roomId : String) (room : Room) (sid : String) (c : Conn) : Conn :=
  { c with
    rooms := JsMap.set c.rooms roomId { room with players := JsMap.delete room.players sid }
    trace := c.trace ++ [Effect.playersDelete roomId sid] }

/-- `rooms.delete(roomId)`. -/
def roomsDelete (roomId : String) (c : Conn) : Conn :=
  { c with
    rooms := JsMap.delete c.rooms roomId
    trace := c.trace ++ [Effect.roomsDelete roomId] }

/-! ## The handlers of `io.on('connection', ...)` -/

/-- The body of `socket.on('disconnecting', ...)`. -/
def onDisconnecting (c : Conn) : Conn :=
  match truthy c.socket.data.roomId with
  | none => c
  | some roomId =>
    let c1 := consoleLog ("👋 " ++ orElse c.socket.data.username "Unknown" ++ " left room: " ++ roomId) c
    let c2 := socketToEmit roomId "playerLeft" (Payload.str c.socket.id) c1
    match JsMap.get c2.rooms roomId with
    | none => c2
    | some room =>
      let c3 := playersDelete roomId room c.socket.id c2
      if JsMap.size (JsMap.delete room.players c.socket.id) = 0 then
        consoleLog ("🗑️ Room " ++ roomId ++ " deleted (empty)") (roomsDelete roomId c3)
      else c3

/-- The body of `socket.on('joinRoom', ...)`: the six steps are comments, the
only statement is the `console.log`. -/
def onJoinRoom (roomId username : Option String) (c : Conn) : Conn :=
  consoleLog ("👤 " ++ jsString username ++ " joined room: " ++ jsString roomId) c

/-- The body of `socket.on('draw', ...)`: empty. -/
def onDraw (_data : DrawStroke) (c : Conn) : Conn := c

/-- The body of `socket.on('clearCanvas', ...)`: empty. -/
def onClearCanvas (c : Conn) : Conn := c

/-- The body of `socket.on('disconnect', ...)`. -/
def onDisconnect (c : Conn) : Conn :=
  consoleLog ("❌ Client disconnected: " ++ c.socket.id) c

/-- A handler run starts with an empty trace. -/
def start (rooms : JsMap Room) (socket : Socket) : Conn :=
  { rooms := rooms, socket := socket, trace := [] }

/-- The `disconnecting` handler after its first two statements, the log and
`socket.to(roomId).emit('playerLeft', socket.id)`: the point of the broadcast. -/
def atBroadcast (rooms : JsMap Room) (socket : Socket) (roomId : String) : Conn :=
  socketToEmit roomId "playerLeft" (Payload.str socket.id)
    (consoleLog ("👋 " ++ orElse socket.data.username "Unknown" ++ " left room: " ++ roomId)
      (start rooms socket))

/-- The `disconnecting` handler after `room.players.delete(socket.id)` on the
room `room` it read from `rooms`: the point of the membership removal. -/
def atRemoval (rooms : JsMap Room) (socket : Socket) (roomId : String) (room : Room) : Conn :=
  playersDelete roomId room socket.id (atBroadcast rooms socket roomId)

/-! ## Reading a trace -/

/-- The emits of a trace, in order: target, event name, payload. -/
def emits : List Effect → List (Target × String × Payload)
  | [] => []
  | Effect.emit t ev p :: rest => (t, ev, p) :: emits rest
  | _ :: rest => emits rest

/-- The trace without its `console.log` lines: emits and mutations only. -/
def actions (t : List Effect) : List Effect :=
  t.filter (fun e => match e with
    | Effect.log _ => false
    | _ => true)

/-- The sessions an emit reaches, given which sockets have joined which
Socket.io room (`adapter r` lists the sockets in room `r`). -/
def recipients (adapter : String → List String) : Target → List String
  | Target.roomExcept room sender => (adapter room).filter (fun s => s != sender)
  | Target.only sid => [sid]

/-- Every session some emit of event `event` in the trace reaches. -/
def deliveredTo (adapter : String → List String) (event : String) (t : List Effect) :
    List String :=
  ((emits t).filter (fun e => e.2.1 == event)).flatMap (fun e => recipients adapter e.1)

/-! ## The server as a transition system -/

/-- The process state: `rooms` and the `data` of every connected socket. -/
structure Server where
  rooms : JsMap Room
  sockets : JsMap SocketData
  deriving DecidableEq, Repr

/-- The events the server registers a handler for. -/
inductive Event where
  | connection (sid : String)
  | joinRoom (sid : String) (roomId username : Option String)
  | draw (sid : String) (data : DrawStroke)
  | clearCanvas (sid : String)
  | disconnecting (sid : String)
  | disconnect (sid : String)
  deriving DecidableEq, Repr

/-- The server at start-up: `rooms = new Map()`, nobody connected. -/
def Server.init : Server := { rooms := [], sockets := [] }

/-- Run a handler of the socket `sid` to completion; a socket that is not
connected has no handlers. -/
def dispatch (h : Conn → Conn) (sv : Server) (sid : String) : Server × List Effect :=
  match JsMap.get sv.sockets sid with
  | none => (sv, [])
  | some data =>
    let c := h (start sv.rooms { id := sid, data := data })
    ({ rooms := c.rooms, sockets := JsMap.set sv.sockets sid c.socket.data }, c.trace)

/-- One event, handled to completion. `connection` is the callback of
`io.on('connection', ...)`: a fresh socket with empty `data`. After its
`disconnect` handler a socket is gone. -/
def step (sv : Server) : Event → Server × List Effect
  | Event.connection sid =>
    ({ sv with sockets := JsMap.set sv.sockets sid { roomId := none, username := none } },
      [Effect.log ("✅ Client connected: " ++ sid)])
  | Event.joinRoom sid roomId username => dispatch (onJoinRoom roomId username) sv sid
  | Event.draw sid data => dispatch (onDraw data) sv sid
  | Event.clearCanvas sid => dispatch onClearCanvas sv sid
  | Event.disconnecting sid => dispatch onDisconnecting sv sid
  | Event.disconnect sid =>
    ({ (dispatch onDisconnect sv sid).1 with
        sockets := JsMap.delete (dispatch onDisconnect sv sid).1.sockets sid },
      (dispatch onDisconnect sv sid).2)

/-- A sequence of events, one handler run after the other; the traces are
concatenated in order. -/
def run : Server → List Event → Server × List Effect
  | sv, [] => (sv, [])
  | sv, e :: es => ((run (step sv e).1 es).1, (step sv e).2 ++ (run (step sv e).1 es).2)

/-! ## The client's player list (`App.jsx`) -/

/-- An element of the `players` state of `App`. -/
structure ClientPlayer where
  id : String
  username : String
  score : Int
  deriving DecidableEq, Repr

/-- The expression `x || 0` on an optional integer: `undefined` and `0` are
falsy, every other integer is kept. -/
def orZero : Option Int → Int
  | some n => if n = 0 then 0 else n
  | none => 0

/-- The new `players` state set by `handleRoomState`: the payload's `players`
pairs, mapped; the previous state is not read. -/
def handleRoomState (roomPlayers : List (String × Player)) (_prev : List ClientPlayer) :
    List ClientPlayer :=
  roomPlayers.map (fun e =>
    { id := e.1, username := e.2.username, score := orZero e.2.score })

/-- The updater of `handlePlayerJoined`. -/
def handlePlayerJoined (id playerUsername : String) (prev : List ClientPlayer) :
    List ClientPlayer :=
  if prev.any (fun p => p.id == id) then prev
  else prev ++ [{ id := id, username := playerUsername, score := 0 }]

/-- The updater of `handlePlayerLeft`. -/
def handlePlayerLeft (id : String) (prev : List ClientPlayer) : List ClientPlayer :=
  prev.filter (fun p => p.id != id)

/-! ## Concrete stores and sockets -/

/-- A first stroke. -/
def exStroke1 : DrawStroke :=
  { x0 := 0, y0 := 0, x1 := 10, y1 := 10, color := "#000000", lineWidth := 5 }

/-- A second stroke. -/
def exStroke2 : DrawStroke :=
  { x0 := 10, y0 := 10, x1 := 20, y1 := 5, color := "#ff0000", lineWidth := 3 }

/-- Player Alice. -/
def exAlice : Player := { username := "Alice", score := some 0 }

/-- Player Bob. -/
def exBob : Player := { username := "Bob", score := some 0 }

/-- A store whose room `game123` has the single member `Y` and one stroke. -/
def exRoomsLast : JsMap Room :=
  [("game123", { players := [("Y", exBob)], drawingHistory := [exStroke1], currentDrawer := none })]

/-- A room with the members `X` and `Y` and one stroke. -/
def exRoomGame : Room :=
  { players := [("X", exAlice), ("Y", exBob)]
    drawingHistory := [exStroke1]
    currentDrawer := none }

/-- The room `exRoomGame` once `Y` has left: `X` alone, the stroke kept. -/
def exRoomAfterY : Room :=
  { players := [("X", exAlice)]
    drawingHistory := [exStroke1]
    currentDrawer := none }

/-- A store with two rooms; `game123` is `exRoomGame`. -/
def exRoomsTwo : JsMap Room :=
  [("game123", exRoomGame),
   ("lobby", { players := [("Z", exAlice)], drawingHistory := [], currentDrawer := none })]

/-- A store whose room `game123` has the single member `X` and no stroke yet. -/
def exRoomsFresh : JsMap Room :=
  [("game123", { players := [("X", exAlice)], drawingHistory := [], currentDrawer := none })]

/-- From start-up: `X` connects, joins `game123`, draws two strokes; then `W`
connects and joins `game123`. -/
def exDrawThenJoin : List Event :=
  [Event.connection "X", Event.joinRoom "X" (some "game123") (some "Alice"),
   Event.draw "X" exStroke1, Event.draw "X" exStroke2,
   Event.connection "W", Event.joinRoom "W" (some "game123") (some "Bob")]

/-- A client player list with `A` and `B`. -/
def exPlayers : List ClientPlayer :=
  [{ id := "A", username := "Alice", score := 0 }, { id := "B", username := "Bob", score := 0 }]

/-- A `roomState` players sequence: scores `7`, `0`, `-3` and a missing one. -/
def exRoomPlayers : List (String × Player) :=
  [("A", { username := "Alice", score := some 7 }),
   ("B", { username := "Bob", score := some 0 }),
   ("C", { username := "Cleo", score := some (-3) }),
   ("D", { username := "Dan", score := none })]

/-- Socket `Y`, recorded in room `game123` as Bob. -/
def exSocketY : Socket := { id := "Y", data := { roomId := some "game123", username := some "Bob" } }

/-- Socket `X`, recorded in room `game123` as Alice. -/
def exSocketX : Socket := { id := "X", data := { roomId := some "game123", username := some "Alice" } }

/-- Socket `W`, connected but never joined. -/
def exSocketFresh : Socket := { id := "W", data := { roomId := none, username := none } }

/-- Which sockets sit in which Socket.io room, for the examples. -/
def exAdapter : String → List String := fun r =>
  if r = "game123" then ["X", "Y"] else if r = "lobby" then ["Z"] else []

/-- A server whose store is `exRoomsTwo`, with `X` and `Y` connected and
recorded in `game123`. -/
def exServer : Server :=
  { rooms := exRoomsTwo
    sockets := [("X", exSocketX.data), ("Y", exSocketY.data)] }

/-! ## Facts about `JsMap` -/

namespace JsMap

variable {α : Type}

theorem has_delete_self (m : JsMap α) (k : String) : has (delete m k) k = false := by
  simp [has, delete]

theorem has_eq_true_iff (m : JsMap α) (k : String) :
    has m k = true ↔ ∃ e ∈ m, e.1 = k := by
  simp [has]

theorem has_set_self (m : JsMap α) (k : String) (v : α) : has (set m k v) k = true := by
  induction m with
  | nil => simp [set, has]
  | cons e rest ih =>
    obtain ⟨k', v'⟩ := e
    by_cases hk : k' = k
    · simp [set, hk, has]
    · simp only [set, hk, if_false]
      simp only [has, List.any_cons] at ih ⊢
      simp [ih]

theorem mem_set (m : JsMap α) (k : String) (v : α) (e : String × α)
    (h : e ∈ set m k v) : e ∈ m ∨ e = (k, v) := by
  induction m with
  | nil => simpa [set] using h
  | cons e' rest ih =>
    obtain ⟨k', v'⟩ := e'
    by_cases hk : k' = k
    · simp only [set, hk, if_true, List.mem_cons] at h
      rcases h with h | h
      · exact Or.inr h
      · exact Or.inl (List.mem_cons_of_mem _ h)
    · simp only [set, hk, if_false, List.mem_cons] at h
      rcases h with h | h
      · exact Or.inl (h ▸ List.mem_cons_self _ _)
      · rcases ih h with h' | h'
        · exact Or.inl (List.mem_cons_of_mem _ h')
        · exact Or.inr h'

theorem get_eq_none_of_has_false (m : JsMap α) (k : String) (h : has m k = false) :
    get m k = none := by
  induction m with
  | nil => rfl
  | cons e rest ih =>
    obtain ⟨k', v'⟩ := e
    simp only [has, List.any_cons, Bool.or_eq_false_iff, beq_eq_false_iff_ne, ne_eq] at h
    simp only [get, h.1, if_false]
    exact ih h.2

theorem has_false_of_get_eq_none (m : JsMap α) (k : String) (h : get m k = none) :
    has m k = false := by
  induction m with
  | nil => rfl
  | cons e rest ih =>
    obtain ⟨k', v'⟩ := e
    by_cases hk : k' = k
    · simp [get, hk] at h
    · simp only [get, hk, if_false] at h
      simp only [has, List.any_cons, Bool.or_eq_false_iff, beq_eq_false_iff_ne, ne_eq]
      exact ⟨hk, ih h⟩

end JsMap

theorem truthy_some (r : String) (hr : r ≠ "") : truthy (some r) = some r := by
  simp [truthy, hr]

/-! ## The three paths of the `disconnecting` handler -/

theorem onDisconnecting_falsy (rooms : JsMap Room) (socket : Socket)
    (h : truthy socket.data.roomId = none) :
    onDisconnecting (start rooms socket) = start rooms socket := by
  simp [onDisconnecting, start, h]

theorem onDisconnecting_no_room (rooms : JsMap Room) (socket : Socket) (r : String)
    (h : truthy socket.data.roomId = some r) (hg : JsMap.get rooms r = none) :
    onDisconnecting (start rooms socket) =
      { rooms := rooms, socket := socket,
        trace := [Effect.log ("👋 " ++ orElse socket.data.username "Unknown" ++ " left room: " ++ r),
          Effect.emit (Target.roomExcept r socket.id) "playerLeft" (Payload.str socket.id)] } := by
  simp [onDisconnecting, start, h, consoleLog, socketToEmit, hg]

theorem onDisconnecting_room (rooms : JsMap Room) (socket : Socket) (r : String) (room : Room)
    (h : truthy socket.data.roomId = some r) (hg : JsMap.get rooms r = some room) :
    onDisconnecting (start rooms socket) =
      if JsMap.size (JsMap.delete room.players socket.id) = 0 then
        { rooms := JsMap.delete (JsMap.set rooms r
            { room with players := JsMap.delete room.players socket.id }) r,
          socket := socket,
          trace := [Effect.log ("👋 " ++ orElse socket.data.username "Unknown" ++ " left room: " ++ r),
            Effect.emit (Target.roomExcept r socket.id) "playerLeft" (Payload.str socket.id),
            Effect.playersDelete r socket.id,
            Effect.roomsDelete r,
            Effect.log ("🗑️ Room " ++ r ++ " deleted (empty)")] }
      else
        { rooms := JsMap.set rooms r { room with players := JsMap.delete room.players socket.id },
          socket := socket,
          trace := [Effect.log ("👋 " ++ orElse socket.data.username "Unknown" ++ " left room: " ++ r),
            Effect.emit (Target.roomExcept r socket.id) "playerLeft" (Payload.str socket.id),
            Effect.playersDelete r socket.id] } := by
  simp only [onDisconnecting, start, h, consoleLog, socketToEmit, hg, playersDelete, roomsDelete]
  split <;> simp

theorem delete_eq_nil_of_keys_singleton {α : Type} (m : JsMap α) (k : String)
    (h : JsMap.keys m = [k]) : JsMap.delete m k = [] := by
  match m, h with
  | [(k', v)], h =>
    simp only [JsMap.keys, List.map_cons, List.map_nil, List.cons.injEq, and_true] at h
    simp [JsMap.delete, h]

/-! ## The disconnect protocol -/

/-- C1: for a socket whose recorded `roomId` is `r`, after the `disconnecting`
handler the store has an entry for `r` exactly when it held a room `r` whose
players, with the socket's id removed, are not empty; in particular a room
whose only player key is the socket's id is gone, and a lookup of `r` finds
nothing. -/
theorem disconnecting_store_has_room_iff (rooms : JsMap Room) (socket : Socket) (r : String)
    (hr : socket.data.roomId = some r) (hne : r ≠ "") :
    (JsMap.has (onDisconnecting (start rooms socket)).rooms r = true ↔
      ∃ room, JsMap.get rooms r = some room ∧ JsMap.delete room.players socket.id ≠ []) ∧
    (∀ room, JsMap.get rooms r = some room → JsMap.keys room.players = [socket.id] →
      JsMap.has (onDisconnecting (start rooms socket)).rooms r = false ∧
      JsMap.get (onDisconnecting (start rooms socket)).rooms r = none) := by
  have ht : truthy socket.data.roomId = some r := by rw [hr]; exact truthy_some r hne
  have key : JsMap.has (onDisconnecting (start rooms socket)).rooms r = true ↔
      ∃ room, JsMap.get rooms r = some room ∧ JsMap.delete room.players socket.id ≠ [] := by
    cases hg : JsMap.get rooms r with
    | none =>
      rw [onDisconnecting_no_room rooms socket r ht hg]
      simp [JsMap.has_false_of_get_eq_none rooms r hg]
    | some room =>
      rw [onDisconnecting_room rooms socket r room ht hg]
      by_cases hs : JsMap.size (JsMap.delete room.players socket.id) = 0
      · have hnil : JsMap.delete room.players socket.id = [] := List.length_eq_zero.mp hs
        rw [if_pos hs]
        simp [JsMap.has_delete_self, hnil]
      · have hnn : JsMap.delete room.players socket.id ≠ [] :=
          fun hnil => hs (by rw [hnil]; rfl)
        rw [if_neg hs]
        simp [JsMap.has_set_self, hnn]
  refine ⟨key, ?_⟩
  intro room hg hk
  have hnil := delete_eq_nil_of_keys_singleton room.players socket.id hk
  have hf : JsMap.has (onDisconnecting (start rooms socket)).rooms r = false := by
    rw [Bool.eq_false_iff]
    intro hc
    obtain ⟨room', hg', hne'⟩ := key.mp hc
    rw [hg] at hg'
    cases hg'
    exact hne' hnil
  exact ⟨hf, JsMap.get_eq_none_of_has_false _ r hf⟩

theorem disconnecting_store_has_room_iff_witness :
    JsMap.has (onDisconnecting (start exRoomsLast exSocketY)).rooms "game123" = false ∧
    JsMap.get (onDisconnecting (start exRoomsLast exSocketY)).rooms "game123" = none :=
  (disconnecting_store_has_room_iff exRoomsLast exSocketY "game123" rfl (by decide)).2
    { players := [("Y", exBob)], drawingHistory := [exStroke1], currentDrawer := none }
    (by decide) (by decide)

/-- C2: if every room of the store has at least one player, then after the
`disconnecting` handler, run for any socket, every room still in the store has
at least one player. -/
theorem disconnecting_preserves_no_empty_room (rooms : JsMap Room) (socket : Socket)
    (hinv : ∀ e ∈ rooms, e.2.players ≠ []) :
    ∀ e ∈ (onDisconnecting (start rooms socket)).rooms, e.2.players ≠ [] := by
  cases ht : truthy socket.data.roomId with
  | none =>
    rw [onDisconnecting_falsy rooms socket ht]
    exact hinv
  | some r =>
    cases hg : JsMap.get rooms r with
    | none =>
      rw [onDisconnecting_no_room rooms socket r ht hg]
      exact hinv
    | some room =>
      rw [onDisconnecting_room rooms socket r room ht hg]
      by_cases hs : JsMap.size (JsMap.delete room.players socket.id) = 0
      · rw [if_pos hs]
        intro e he
        have he' : e ∈ JsMap.set rooms r
            { room with players := JsMap.delete room.players socket.id } ∧ (e.1 != r) = true := by
          simpa [JsMap.delete] using he
        rcases JsMap.mem_set _ _ _ _ he'.1 with h | h
        · exact hinv e h
        · exfalso
          have := he'.2
          rw [h] at this
          simp at this
      · rw [if_neg hs]
        intro e he
        rcases JsMap.mem_set _ _ _ _ he with h | h
        · exact hinv e h
        · rw [h]
          intro hnil
          apply hs
          show JsMap.size (JsMap.delete room.players socket.id) = 0
          have : JsMap.delete room.players socket.id = [] := hnil
          rw [this]; rfl

theorem disconnecting_preserves_no_empty_room_witness :
    (∀ e ∈ exRoomsTwo, e.2.players ≠ []) ∧
    (∀ e ∈ (onDisconnecting (start exRoomsTwo exSocketY)).rooms, e.2.players ≠ []) :=
  ⟨by decide, disconnecting_preserves_no_empty_room exRoomsTwo exSocketY (by decide)⟩

/-- C3: for a socket whose recorded `roomId` is `r`, the `disconnecting` handler
emits exactly one event: `playerLeft`, addressed to room `r` without the
sender, with the bare socket id as payload; so it reaches the sockets of room
`r` other than the sender, and no other event is emitted. -/
theorem disconnecting_emits_one_playerLeft (rooms : JsMap Room) (socket : Socket) (r : String)
    (hr : socket.data.roomId = some r) (hne : r ≠ "") :
    emits (onDisconnecting (start rooms socket)).trace =
      [(Target.roomExcept r socket.id, "playerLeft", Payload.str socket.id)] ∧
    ∀ adapter : String → List String,
      deliveredTo adapter "playerLeft" (onDisconnecting (start rooms socket)).trace =
        (adapter r).filter (fun s => s != socket.id) := by
  have ht : truthy socket.data.roomId = some r := by rw [hr]; exact truthy_some r hne
  have key : emits (onDisconnecting (start rooms socket)).trace =
      [(Target.roomExcept r socket.id, "playerLeft", Payload.str socket.id)] := by
    cases hg : JsMap.get rooms r with
    | none =>
      rw [onDisconnecting_no_room rooms socket r ht hg]
      rfl
    | some room =>
      rw [onDisconnecting_room rooms socket r room ht hg]
      split <;> rfl
  refine ⟨key, ?_⟩
  intro adapter
  simp [deliveredTo, key, recipients]

theorem disconnecting_emits_one_playerLeft_witness :
    emits (onDisconnecting (start exRoomsTwo exSocketY)).trace =
      [(Target.roomExcept "game123" "Y", "playerLeft", Payload.str "Y")] ∧
    deliveredTo exAdapter "playerLeft" (onDisconnecting (start exRoomsTwo exSocketY)).trace
      = ["X"] :=
  ⟨(disconnecting_emits_one_playerLeft exRoomsTwo exSocketY "game123" rfl (by decide)).1,
   by decide⟩

/-- C4: for a socket whose `data.roomId` is absent or the empty string, the
`disconnecting` handler changes nothing: the store (every room, its players
and its history) and the socket are as before and the trace is empty, so
nothing is emitted. -/
theorem disconnecting_noop_without_room (rooms : JsMap Room) (socket : Socket)
    (h : socket.data.roomId = none ∨ socket.data.roomId = some "") :
    onDisconnecting (start rooms socket) = start rooms socket ∧
    (onDisconnecting (start rooms socket)).rooms = rooms ∧
    (onDisconnecting (start rooms socket)).trace = [] := by
  have ht : truthy socket.data.roomId = none := by
    rcases h with h | h <;> rw [h] <;> rfl
  rw [onDisconnecting_falsy rooms socket ht]
  exact ⟨rfl, rfl, rfl⟩

theorem disconnecting_noop_without_room_witness :
    (onDisconnecting (start exRoomsTwo exSocketFresh)).rooms = exRoomsTwo ∧
    (onDisconnecting (start exRoomsTwo exSocketFresh)).trace = [] :=
  (disconnecting_noop_without_room exRoomsTwo exSocketFresh (Or.inl rfl)).2

theorem run_append (sv : Server) (es1 es2 : List Event) :
    run sv (es1 ++ es2) =
      ((run (run sv es1).1 es2).1, (run sv es1).2 ++ (run (run sv es1).1 es2).2) := by
  induction es1 generalizing sv with
  | nil => simp [run]
  | cons e es ih => simp [run, ih, List.append_assoc]

theorem step_disconnecting_trace (sv : Server) (sid : String) (data : SocketData)
    (h : JsMap.get sv.sockets sid = some data) :
    (step sv (Event.disconnecting sid)).2 =
      (onDisconnecting (start sv.rooms { id := sid, data := data })).trace := by
  simp [step, dispatch, h]

/-! ## The unfinished handlers: `joinRoom`, `draw`, `clearCanvas` -/

/-- C6: the `joinRoom` handler evaluated on the empty store for the fresh
socket `W` with `roomId` `game123` and `username` `Alice`: the store is still
empty (no room `game123`), the socket has no recorded `roomId` or `username`,
and nothing is emitted; the handler only logs. -/
theorem joinRoom_creates_no_room :
    (onJoinRoom (some "game123") (some "Alice") (start [] exSocketFresh)).rooms = [] ∧
    JsMap.has (onJoinRoom (some "game123") (some "Alice") (start [] exSocketFresh)).rooms
      "game123" = false ∧
    (onJoinRoom (some "game123") (some "Alice") (start [] exSocketFresh)).socket.data =
      { roomId := none, username := none } ∧
    (onJoinRoom (some "game123") (some "Alice") (start [] exSocketFresh)).trace =
      [Effect.log "👤 Alice joined room: game123"] := by
  decide

/-- C7: the `draw` handler evaluated for the member `X` of room `game123` with
empty history and the stroke `exStroke1`: the store is unchanged, so the
history of `game123` is still empty and not `[exStroke1]`; nothing is emitted;
and a `joinRoom` of `W` for `game123` afterwards emits no `roomState`. Run
from start-up over `exDrawThenJoin`, the server ends with an empty store and
has emitted nothing. -/
theorem draw_leaves_history :
    (onDraw exStroke1 (start exRoomsFresh exSocketX)).rooms = exRoomsFresh ∧
    (JsMap.get (onDraw exStroke1 (start exRoomsFresh exSocketX)).rooms "game123").map
      Room.drawingHistory = some [] ∧
    (onDraw exStroke1 (start exRoomsFresh exSocketX)).trace = [] ∧
    emits (onJoinRoom (some "game123") (some "Bob")
      (start (onDraw exStroke1 (start exRoomsFresh exSocketX)).rooms exSocketFresh)).trace = [] ∧
    (run Server.init exDrawThenJoin).1.rooms = [] ∧
    emits (run Server.init exDrawThenJoin).2 = [] := by
  decide

/-- C8: the `clearCanvas` handler evaluated for the member `Y` of room `game123`
whose history is `[exStroke1]`: the store is unchanged, so the history of
`game123` is still `[exStroke1]` and not empty; nothing is emitted. -/
theorem clearCanvas_leaves_history :
    (onClearCanvas (start exRoomsLast exSocketY)).rooms = exRoomsLast ∧
    (JsMap.get (onClearCanvas (start exRoomsLast exSocketY)).rooms "game123").map
      Room.drawingHistory = some [exStroke1] ∧
    (onClearCanvas (start exRoomsLast exSocketY)).trace = [] := by
  decide

/-- C9: for every server state, every socket `sid` and every `draw` or
`clearCanvas` event received from it, the sockets the server sends that event
to in response do not include `sid`, whatever the Socket.io room membership. -/
theorem draw_clear_never_echo (sv : Server) (sid : String) (data : DrawStroke)
    (adapter : String → List String) :
    sid ∉ deliveredTo adapter "draw" (step sv (Event.draw sid data)).2 ∧
    sid ∉ deliveredTo adapter "clearCanvas" (step sv (Event.clearCanvas sid)).2 := by
  constructor
  · cases h : JsMap.get sv.sockets sid <;>
      simp [step, dispatch, h, onDraw, start, deliveredTo, emits]
  · cases h : JsMap.get sv.sockets sid <;>
      simp [step, dispatch, h, onClearCanvas, start, deliveredTo, emits]

/-! ## The client's player list -/

theorem handlePlayerLeft_of_absent (players : List ClientPlayer) (b : String)
    (h : ∀ p ∈ players, p.id ≠ b) : handlePlayerLeft b players = players := by
  unfold handlePlayerLeft
  rw [List.filter_eq_self]
  intro p hp
  simpa using h p hp

theorem handlePlayerLeft_split (players : List ClientPlayer) (b : String)
    (hnd : (players.map ClientPlayer.id).Nodup) (hb : ∃ p ∈ players, p.id = b) :
    ∃ l1 p l2, players = l1 ++ p :: l2 ∧ p.id = b ∧ handlePlayerLeft b players = l1 ++ l2 := by
  induction players with
  | nil => obtain ⟨p, hp, _⟩ := hb; cases hp
  | cons q qs ih =>
    rw [List.map_cons, List.nodup_cons] at hnd
    by_cases hq : q.id = b
    · refine ⟨[], q, qs, rfl, hq, ?_⟩
      have habs : ∀ p ∈ qs, p.id ≠ b := by
        intro p hp hpb
        exact hnd.1 (List.mem_map.mpr ⟨p, hp, by rw [hpb, hq]⟩)
      have := handlePlayerLeft_of_absent qs b habs
      simp only [handlePlayerLeft] at this ⊢
      simp [List.filter_cons, hq, this]
    · have hb' : ∃ p ∈ qs, p.id = b := by
        obtain ⟨p, hp, hpb⟩ := hb
        rcases List.mem_cons.mp hp with h | h
        · exact absurd (h ▸ hpb) hq
        · exact ⟨p, h, hpb⟩
      obtain ⟨l1, p, l2, hsplit, hpb, hres⟩ := ih hnd.2 hb'
      refine ⟨q :: l1, p, l2, by rw [hsplit]; rfl, hpb, ?_⟩
      simp only [handlePlayerLeft] at hres ⊢
      simp [List.filter_cons, hq, hres]

/-- C10: on a player list with pairwise-distinct ids that has a player with id
`b`, `handlePlayerLeft b` gives a list one shorter, with no player of id `b`,
that is the old list with that one player taken out (the others unchanged and
in order); and on a list with no player of id `b` it gives the list back. -/
theorem handlePlayerLeft_removes_exactly_one (players : List ClientPlayer) (b : String) :
    ((players.map ClientPlayer.id).Nodup → (∃ p ∈ players, p.id = b) →
      (handlePlayerLeft b players).length + 1 = players.length ∧
      (∀ p ∈ handlePlayerLeft b players, p.id ≠ b) ∧
      ∃ l1 p l2, players = l1 ++ p :: l2 ∧ p.id = b ∧ handlePlayerLeft b players = l1 ++ l2) ∧
    ((∀ p ∈ players, p.id ≠ b) → handlePlayerLeft b players = players) := by
  refine ⟨?_, handlePlayerLeft_of_absent players b⟩
  intro hnd hb
  obtain ⟨l1, p, l2, hsplit, hpb, hres⟩ := handlePlayerLeft_split players b hnd hb
  refine ⟨?_, ?_, l1, p, l2, hsplit, hpb, hres⟩
  · rw [hres, hsplit]
    simp only [List.length_append, List.length_cons]
    omega
  · intro q hq
    have : q ∈ players.filter (fun p => p.id != b) := hq
    simpa using (List.mem_filter.mp this).2

theorem handlePlayerLeft_removes_exactly_one_witness :
    ((handlePlayerLeft "B" exPlayers).length + 1 = exPlayers.length ∧
      (∀ p ∈ handlePlayerLeft "B" exPlayers, p.id ≠ "B") ∧
      ∃ l1 p l2, exPlayers = l1 ++ p :: l2 ∧ p.id = "B" ∧
        handlePlayerLeft "B" exPlayers = l1 ++ l2) ∧
    handlePlayerLeft "C" exPlayers = exPlayers :=
  ⟨(handlePlayerLeft_removes_exactly_one exPlayers "B").1 (by decide)
      ⟨{ id := "B", username := "Bob", score := 0 }, by decide, rfl⟩,
   (handlePlayerLeft_removes_exactly_one exPlayers "C").2 (by decide)⟩

theorem handlePlayerJoined_of_present (prev : List ClientPlayer) (id u : String)
    (h : ∃ p ∈ prev, p.id = id) : handlePlayerJoined id u prev = prev := by
  have hany : prev.any (fun p => p.id == id) = true := by
    simpa using h
  simp [handlePlayerJoined, hany]

theorem handlePlayerJoined_of_absent (prev : List ClientPlayer) (id u : String)
    (h : ∀ p ∈ prev, p.id ≠ id) :
    handlePlayerJoined id u prev = prev ++ [{ id := id, username := u, score := 0 }] := by
  have hany : prev.any (fun p => p.id == id) = false := by
    rw [Bool.eq_false_iff]
    intro hc
    obtain ⟨p, hp, hpid⟩ : ∃ p ∈ prev, p.id = id := by simpa using hc
    exact h p hp hpid
  simp [handlePlayerJoined, hany]

/-- C11: `handlePlayerJoined` gives the list back when some player already has
the id, and otherwise appends the one player with that id, that username and
score `0` at the end; so pairwise-distinct ids stay pairwise distinct, and
applying the same `playerJoined` twice gives what applying it once gives. -/
theorem handlePlayerJoined_no_duplicates (prev : List ClientPlayer) (id u : String) :
    ((∃ p ∈ prev, p.id = id) → handlePlayerJoined id u prev = prev) ∧
    ((∀ p ∈ prev, p.id ≠ id) →
      handlePlayerJoined id u prev = prev ++ [{ id := id, username := u, score := 0 }]) ∧
    ((prev.map ClientPlayer.id).Nodup →
      ((handlePlayerJoined id u prev).map ClientPlayer.id).Nodup) ∧
    handlePlayerJoined id u (handlePlayerJoined id u prev) = handlePlayerJoined id u prev := by
  refine ⟨handlePlayerJoined_of_present prev id u, handlePlayerJoined_of_absent prev id u, ?_, ?_⟩
  · intro hnd
    by_cases h : ∃ p ∈ prev, p.id = id
    · rw [handlePlayerJoined_of_present prev id u h]
      exact hnd
    · have habs : ∀ p ∈ prev, p.id ≠ id := fun p hp hpid => h ⟨p, hp, hpid⟩
      rw [handlePlayerJoined_of_absent prev id u habs, List.map_append, List.nodup_append]
      refine ⟨hnd, by simp, ?_⟩
      intro a ha hb
      obtain ⟨p, hp, hpa⟩ := List.mem_map.mp ha
      have : a = id := by simpa using hb
      exact habs p hp (hpa.trans this)
  · by_cases h : ∃ p ∈ prev, p.id = id
    · rw [handlePlayerJoined_of_present prev id u h, handlePlayerJoined_of_present prev id u h]
    · have habs : ∀ p ∈ prev, p.id ≠ id := fun p hp hpid => h ⟨p, hp, hpid⟩
      rw [handlePlayerJoined_of_absent prev id u habs]
      apply handlePlayerJoined_of_present
      exact ⟨{ id := id, username := u, score := 0 }, by simp, rfl⟩

theorem handlePlayerJoined_no_duplicates_witness :
    handlePlayerJoined "B" "Bobby" exPlayers = exPlayers ∧
    handlePlayerJoined "C" "Cleo" exPlayers =
      exPlayers ++ [{ id := "C", username := "Cleo", score := 0 }] ∧
    ((handlePlayerJoined "C" "Cleo" exPlayers).map ClientPlayer.id).Nodup :=
  ⟨(handlePlayerJoined_no_duplicates exPlayers "B" "Bobby").1
      ⟨{ id := "B", username := "Bob", score := 0 }, by decide, rfl⟩,
   (handlePlayerJoined_no_duplicates exPlayers "C" "Cleo").2.1 (by decide),
   (handlePlayerJoined_no_duplicates exPlayers "C" "Cleo").2.2.1 (by decide)⟩

theorem orZero_some (n : Int) : orZero (some n) = n := by
  by_cases h : n = 0
  · simp [orZero, h]
  · simp [orZero, h]

/-- C12: `handleRoomState` sets a list of the same length as the payload's
`players` sequence whose `i`-th entry has the `i`-th session id, that player's
username, and that player's score for every integer score (zero and negative
included), `0` when the score is missing; the previous list plays no part. -/
theorem handleRoomState_round_trips (roomPlayers : List (String × Player))
    (prev : List ClientPlayer) :
    (handleRoomState roomPlayers prev).length = roomPlayers.length ∧
    (∀ (i : Nat) (e : String × Player), roomPlayers[i]? = some e →
      ∃ q, (handleRoomState roomPlayers prev)[i]? = some q ∧
        q.id = e.1 ∧ q.username = e.2.username ∧
        (∀ n : Int, e.2.score = some n → q.score = n) ∧
        (e.2.score = none → q.score = 0)) ∧
    (handleRoomState roomPlayers prev).map ClientPlayer.id = roomPlayers.map Prod.fst ∧
    ∀ prev' : List ClientPlayer,
      handleRoomState roomPlayers prev' = handleRoomState roomPlayers prev := by
  refine ⟨by simp [handleRoomState], ?_, by simp [handleRoomState], fun _ => rfl⟩
  intro i e he
  refine ⟨{ id := e.1, username := e.2.username, score := orZero e.2.score }, ?_, rfl, rfl, ?_, ?_⟩
  · simp [handleRoomState, List.getElem?_map, he]
  · intro n hn
    show orZero e.2.score = n
    rw [hn, orZero_some]
  · intro hn
    show orZero e.2.score = 0
    rw [hn]
    rfl

theorem handleRoomState_round_trips_witness :
    ∃ q, (handleRoomState exRoomPlayers exPlayers)[2]? = some q ∧
      q.id = "C" ∧ q.username = "Cleo" ∧ q.score = -3 :=
  match (handleRoomState_round_trips exRoomPlayers exPlayers).2.1 2
    ("C", { username := "Cleo", score := some (-3) }) (by decide) with
  | ⟨q, h1, h2, h3, h4, _⟩ => ⟨q, h1, h2, h3, h4 (-3) rfl⟩

/-! ## The server as written, from start-up -/

theorem JsMap.mem_of_get {α : Type} (m : JsMap α) (k : String) (v : α)
    (h : JsMap.get m k = some v) : (k, v) ∈ m := by
  induction m with
  | nil => simp [JsMap.get] at h
  | cons e rest ih =>
    obtain ⟨k', v'⟩ := e
    by_cases hk : k' = k
    · simp only [JsMap.get, hk, if_true, Option.some.injEq] at h
      rw [hk, h]
      exact List.mem_cons_self _ _
    · simp only [JsMap.get, hk, if_false] at h
      exact List.mem_cons_of_mem _ (ih h)

theorem emits_append (a b : List Effect) : emits (a ++ b) = emits a ++ emits b := by
  induction a with
  | nil => rfl
  | cons e rest ih => cases e <;> simp [emits, ih]

theorem dispatch_quiet (h : Conn → Conn) (sv : Server) (sid : String)
    (hh : ∀ d : SocketData, d.roomId = none →
      (h (start [] { id := sid, data := d })).rooms = [] ∧
      (h (start [] { id := sid, data := d })).socket.data.roomId = none ∧
      emits (h (start [] { id := sid, data := d })).trace = [])
    (h1 : sv.rooms = []) (h2 : ∀ x ∈ sv.sockets, x.2.roomId = none) :
    (dispatch h sv sid).1.rooms = [] ∧
    (∀ x ∈ (dispatch h sv sid).1.sockets, x.2.roomId = none) ∧
    emits (dispatch h sv sid).2 = [] := by
  cases hg : JsMap.get sv.sockets sid with
  | none =>
    simp only [dispatch, hg]
    exact ⟨h1, h2, rfl⟩
  | some d =>
    have hd : d.roomId = none := h2 (sid, d) (JsMap.mem_of_get _ _ _ hg)
    obtain ⟨hr, hs, he⟩ := hh d hd
    simp only [dispatch, hg, h1]
    refine ⟨hr, ?_, he⟩
    intro x hx
    rcases JsMap.mem_set _ _ _ _ hx with hx' | hx'
    · exact h2 x hx'
    · rw [hx']
      exact hs

theorem step_quiet (sv : Server) (e : Event)
    (h1 : sv.rooms = []) (h2 : ∀ x ∈ sv.sockets, x.2.roomId = none) :
    (step sv e).1.rooms = [] ∧
    (∀ x ∈ (step sv e).1.sockets, x.2.roomId = none) ∧
    emits (step sv e).2 = [] := by
  cases e with
  | connection sid =>
    refine ⟨h1, ?_, rfl⟩
    intro x hx
    rcases JsMap.mem_set _ _ _ _ hx with hx' | hx'
    · exact h2 x hx'
    · rw [hx']
  | joinRoom sid roomId username =>
    exact dispatch_quiet _ sv sid (fun d hd => ⟨rfl, hd, rfl⟩) h1 h2
  | draw sid data =>
    exact dispatch_quiet _ sv sid (fun d hd => ⟨rfl, hd, rfl⟩) h1 h2
  | clearCanvas sid =>
    exact dispatch_quiet _ sv sid (fun d hd => ⟨rfl, hd, rfl⟩) h1 h2
  | disconnecting sid =>
    refine dispatch_quiet _ sv sid (fun d hd => ?_) h1 h2
    have ht : truthy (Socket.mk sid d).data.roomId = none := by
      show truthy d.roomId = none
      rw [hd]; rfl
    rw [onDisconnecting_falsy [] (Socket.mk sid d) ht]
    exact ⟨rfl, hd, rfl⟩
  | disconnect sid =>
    obtain ⟨hr, hs, he⟩ :=
      dispatch_quiet onDisconnect sv sid (fun d hd => ⟨rfl, hd, rfl⟩) h1 h2
    refine ⟨hr, ?_, he⟩
    intro x hx
    have hx' : x ∈ (dispatch onDisconnect sv sid).1.sockets :=
      (List.mem_filter.mp hx).1
    exact hs x hx'

theorem run_quiet (sv : Server) (es : List Event)
    (h1 : sv.rooms = []) (h2 : ∀ x ∈ sv.sockets, x.2.roomId = none) :
    (run sv es).1.rooms = [] ∧
    (∀ x ∈ (run sv es).1.sockets, x.2.roomId = none) ∧
    emits (run sv es).2 = [] := by
  induction es generalizing sv with
  | nil => exact ⟨h1, h2, rfl⟩
  | cons e es ih =>
    obtain ⟨s1, s2, s3⟩ := step_quiet sv e h1 h2
    obtain ⟨r1, r2, r3⟩ := ih (step sv e).1 s1 s2
    refine ⟨r1, r2, ?_⟩
    simp only [run]
    rw [emits_append, s3, r3]
    rfl

/-- C13: from start-up (empty `rooms`, nobody connected), after every finite
sequence of `connection`, `joinRoom`, `draw`, `clearCanvas`, `disconnecting` and
`disconnect` events of any sockets, `rooms` is empty, no connected socket has a
recorded `roomId`, and the server has emitted no event at all, so no socket
was sent any event of any name. -/
theorem server_as_written_stays_empty (es : List Event) :
    (run Server.init es).1.rooms = [] ∧
    (∀ x ∈ (run Server.init es).1.sockets, x.2.roomId = none) ∧
    emits (run Server.init es).2 = [] ∧
    ∀ (adapter : String → List String) (event : String),
      deliveredTo adapter event (run Server.init es).2 = [] := by
  obtain ⟨r1, r2, r3⟩ := run_quiet Server.init es rfl (by intro x hx; cases hx)
  refine ⟨r1, r2, r3, ?_⟩
  intro adapter event
  simp [deliveredTo, r3]

/-! ## The frame of the disconnect protocol -/

theorem JsMap.get_set_self {α : Type} (m : JsMap α) (k : String) (v : α) :
    JsMap.get (JsMap.set m k v) k = some v := by
  induction m with
  | nil => simp [JsMap.set, JsMap.get]
  | cons e rest ih =>
    obtain ⟨k', v'⟩ := e
    by_cases hk : k' = k
    · simp [JsMap.set, JsMap.get, hk]
    · simp [JsMap.set, JsMap.get, hk, ih]

theorem JsMap.get_set_ne {α : Type} (m : JsMap α) (k k2 : String) (v : α) (h : k2 ≠ k) :
    JsMap.get (JsMap.set m k v) k2 = JsMap.get m k2 := by
  induction m with
  | nil => simp [JsMap.set, JsMap.get, Ne.symm h]
  | cons e rest ih =>
    obtain ⟨k', v'⟩ := e
    by_cases hk : k' = k
    · have hk2 : ¬ k' = k2 := fun hc => h (hc ▸ hk)
      simp [JsMap.set, JsMap.get, hk, hk2, Ne.symm h]
    · by_cases hk2 : k' = k2
      · subst hk2
        simp [JsMap.set, JsMap.get, hk]
      · simp [JsMap.set, JsMap.get, hk, hk2, ih]

theorem JsMap.get_delete_ne {α : Type} (m : JsMap α) (k k2 : String) (h : k2 ≠ k) :
    JsMap.get (JsMap.delete m k) k2 = JsMap.get m k2 := by
  induction m with
  | nil => rfl
  | cons e rest ih =>
    obtain ⟨k', v'⟩ := e
    have ih' : JsMap.get (List.filter (fun e => e.1 != k) rest) k2 = JsMap.get rest k2 := ih
    by_cases hk : k' = k
    · have hk2 : ¬ k' = k2 := fun hc => h (hc ▸ hk)
      simp [JsMap.delete, JsMap.get, hk, Ne.symm h, ih']
    · by_cases hk2 : k' = k2
      · subst hk2
        simp [JsMap.delete, JsMap.get, hk]
      · simp [JsMap.delete, JsMap.get, hk, hk2, ih']

theorem JsMap.delete_set_self {α : Type} (m : JsMap α) (k : String) (v : α) :
    JsMap.delete (JsMap.set m k v) k = JsMap.delete m k := by
  induction m with
  | nil => simp [JsMap.set, JsMap.delete]
  | cons e rest ih =>
    obtain ⟨k', v'⟩ := e
    have ih' : List.filter (fun e => e.1 != k) (JsMap.set rest k v) =
        List.filter (fun e => e.1 != k) rest := ih
    by_cases hk : k' = k
    · simp [JsMap.set, JsMap.delete, hk]
    · simp [JsMap.set, JsMap.delete, hk, ih']

/-- C14: for a socket whose recorded `roomId` is `r`, the `disconnecting`
handler leaves every room with another id in place and unchanged (the store
without its entry for `r` is the same before and after); a room `r` that stays
keeps its `drawingHistory` and its player entries other than the socket's own,
and a room `r` that is removed had no other player entry; when the store has
no room `r` the handler returns with the store exactly as it was. -/
theorem disconnecting_frame (rooms : JsMap Room) (socket : Socket) (r : String)
    (hr : socket.data.roomId = some r) (hne : r ≠ "") :
    (∀ k, k ≠ r →
      JsMap.get (onDisconnecting (start rooms socket)).rooms k = JsMap.get rooms k) ∧
    JsMap.delete (onDisconnecting (start rooms socket)).rooms r = JsMap.delete rooms r ∧
    (∀ room room', JsMap.get rooms r = some room →
      JsMap.get (onDisconnecting (start rooms socket)).rooms r = some room' →
      room'.drawingHistory = room.drawingHistory ∧
      room'.currentDrawer = room.currentDrawer ∧
      room'.players = JsMap.delete room.players socket.id ∧
      ∀ p, p ≠ socket.id → JsMap.get room'.players p = JsMap.get room.players p) ∧
    (∀ room, JsMap.get rooms r = some room →
      JsMap.get (onDisconnecting (start rooms socket)).rooms r = none →
      ∀ p, p ≠ socket.id → JsMap.get room.players p = none) ∧
    (JsMap.get rooms r = none → (onDisconnecting (start rooms socket)).rooms = rooms) := by
  have ht : truthy socket.data.roomId = some r := by rw [hr]; exact truthy_some r hne
  cases hg : JsMap.get rooms r with
  | none =>
    rw [onDisconnecting_no_room rooms socket r ht hg]
    refine ⟨fun _ _ => rfl, rfl, ?_, ?_, fun _ => rfl⟩
    · intro room room' h
      cases h
    · intro room h
      cases h
  | some room =>
    rw [onDisconnecting_room rooms socket r room ht hg]
    by_cases hs : JsMap.size (JsMap.delete room.players socket.id) = 0
    · rw [if_pos hs]
      have hnil : JsMap.delete room.players socket.id = [] := List.length_eq_zero.mp hs
      refine ⟨?_, ?_, ?_, ?_, ?_⟩
      · intro k hk
        show JsMap.get (JsMap.delete (JsMap.set rooms r _) r) k = JsMap.get rooms k
        rw [JsMap.get_delete_ne _ _ _ hk, JsMap.get_set_ne _ _ _ _ hk]
      · show JsMap.delete (JsMap.delete (JsMap.set rooms r _) r) r = JsMap.delete rooms r
        rw [JsMap.delete_set_self]
        simp [JsMap.delete]
      · intro room1 room' _ h'
        have hnone : JsMap.get (JsMap.delete (JsMap.set rooms r
            { room with players := JsMap.delete room.players socket.id }) r) r = none :=
          JsMap.get_eq_none_of_has_false _ _ (JsMap.has_delete_self _ _)
        have h2 : JsMap.get (JsMap.delete (JsMap.set rooms r
            { room with players := JsMap.delete room.players socket.id }) r) r = some room' := h'
        rw [hnone] at h2
        cases h2
      · intro room1 h1 _ p hp
        cases h1
        rw [← JsMap.get_delete_ne room.players socket.id p hp, hnil]
        rfl
      · intro h
        cases h
    · rw [if_neg hs]
      refine ⟨?_, ?_, ?_, ?_, ?_⟩
      · intro k hk
        exact JsMap.get_set_ne _ _ _ _ hk
      · exact JsMap.delete_set_self _ _ _
      · intro room1 room' h1 h'
        cases h1
        have h2 : JsMap.get (JsMap.set rooms r
            { room with players := JsMap.delete room.players socket.id }) r = some room' := h'
        rw [JsMap.get_set_self] at h2
        cases h2
        exact ⟨rfl, rfl, rfl, fun p hp => JsMap.get_delete_ne _ _ _ hp⟩
      · intro room1 _ h'
        have h2 : JsMap.get (JsMap.set rooms r
            { room with players := JsMap.delete room.players socket.id }) r = none := h'
        rw [JsMap.get_set_self] at h2
        cases h2
      · intro h
        cases h

theorem disconnecting_frame_witness :
    JsMap.get (onDisconnecting (start exRoomsTwo exSocketY)).rooms "lobby" =
      JsMap.get exRoomsTwo "lobby" ∧
    JsMap.delete (onDisconnecting (start exRoomsTwo exSocketY)).rooms "game123" =
      JsMap.delete exRoomsTwo "game123" ∧
    (exRoomAfterY.drawingHistory = exRoomGame.drawingHistory ∧
      exRoomAfterY.currentDrawer = exRoomGame.currentDrawer ∧
      exRoomAfterY.players = JsMap.delete exRoomGame.players "Y") ∧
    JsMap.get exRoomAfterY.players "X" = JsMap.get exRoomGame.players "X" :=
  ⟨(disconnecting_frame exRoomsTwo exSocketY "game123" rfl (by decide)).1 "lobby" (by decide),
   (disconnecting_frame exRoomsTwo exSocketY "game123" rfl (by decide)).2.1,
   ⟨((disconnecting_frame exRoomsTwo exSocketY "game123" rfl (by decide)).2.2.1
      exRoomGame exRoomAfterY (by decide) (by decide)).1,
    ((disconnecting_frame exRoomsTwo exSocketY "game123" rfl (by decide)).2.2.1
      exRoomGame exRoomAfterY (by decide) (by decide)).2.1,
    ((disconnecting_frame exRoomsTwo exSocketY "game123" rfl (by decide)).2.2.1
      exRoomGame exRoomAfterY (by decide) (by decide)).2.2.1⟩,
   ((disconnecting_frame exRoomsTwo exSocketY "game123" rfl (by decide)).2.2.1
      exRoomGame exRoomAfterY (by decide) (by decide)).2.2.2 "X" (by decide)⟩

/-! ## The order of the disconnect protocol -/

theorem step_disconnecting_eq (sv : Server) (sid : String) (data : SocketData)
    (h : JsMap.get sv.sockets sid = some data) :
    step sv (Event.disconnecting sid) =
      ({ rooms := (onDisconnecting (start sv.rooms { id := sid, data := data })).rooms,
         sockets := JsMap.set sv.sockets sid
           (onDisconnecting (start sv.rooms { id := sid, data := data })).socket.data },
       (onDisconnecting (start sv.rooms { id := sid, data := data })).trace) := by
  simp [step, dispatch, h]

/-- C5: for a socket whose recorded `roomId` is `r` and whose room `room`
exists, the handler passes through these states in this order. At the
broadcast the store is still the one the handler started with, `room` with all
its players under `r`, and the trace is the log and the `playerLeft` emit. At
the removal the store holds under `r` the room without the socket's player,
and the trace has grown by the player deletion. The handler ends there when a
player is left, and otherwise deletes `r` from the store and logs. In a run of
the server, the events before leave the store the broadcast sees, the
handler's effects follow theirs as one block, and the events after start from
the store with the removal (and the room deletion) done. -/
theorem disconnecting_broadcast_before_removal (rooms : JsMap Room) (socket : Socket)
    (r : String) (room : Room)
    (hr : socket.data.roomId = some r) (hne : r ≠ "") (hg : JsMap.get rooms r = some room) :
    ((atBroadcast rooms socket r).rooms = rooms ∧
      JsMap.get (atBroadcast rooms socket r).rooms r = some room ∧
      (atBroadcast rooms socket r).trace =
        [Effect.log ("👋 " ++ orElse socket.data.username "Unknown" ++ " left room: " ++ r),
          Effect.emit (Target.roomExcept r socket.id) "playerLeft" (Payload.str socket.id)]) ∧
    ((atRemoval rooms socket r room).rooms =
        JsMap.set rooms r { room with players := JsMap.delete room.players socket.id } ∧
      JsMap.get (atRemoval rooms socket r room).rooms r =
        some { room with players := JsMap.delete room.players socket.id } ∧
      JsMap.has (JsMap.delete room.players socket.id) socket.id = false ∧
      (atRemoval rooms socket r room).trace =
        (atBroadcast rooms socket r).trace ++ [Effect.playersDelete r socket.id]) ∧
    (JsMap.size (JsMap.delete room.players socket.id) ≠ 0 →
      onDisconnecting (start rooms socket) = atRemoval rooms socket r room) ∧
    (JsMap.size (JsMap.delete room.players socket.id) = 0 →
      (onDisconnecting (start rooms socket)).rooms = JsMap.delete rooms r ∧
      JsMap.has (onDisconnecting (start rooms socket)).rooms r = false ∧
      (onDisconnecting (start rooms socket)).socket = socket ∧
      (onDisconnecting (start rooms socket)).trace =
        (atRemoval rooms socket r room).trace ++
          [Effect.roomsDelete r, Effect.log ("🗑️ Room " ++ r ++ " deleted (empty)")]) ∧
    actions (onDisconnecting (start rooms socket)).trace =
      [Effect.emit (Target.roomExcept r socket.id) "playerLeft" (Payload.str socket.id),
        Effect.playersDelete r socket.id] ++
      (if JsMap.size (JsMap.delete room.players socket.id) = 0 then [Effect.roomsDelete r]
        else []) ∧
    ∀ (sv : Server) (es1 es2 : List Event),
      (run sv es1).1.rooms = rooms →
      JsMap.get (run sv es1).1.sockets socket.id = some socket.data →
      (atBroadcast (run sv es1).1.rooms socket r).rooms = (run sv es1).1.rooms ∧
      (step (run sv es1).1 (Event.disconnecting socket.id)).1 =
        { rooms :=
            if JsMap.size (JsMap.delete room.players socket.id) = 0 then JsMap.delete rooms r
            else JsMap.set rooms r { room with players := JsMap.delete room.players socket.id },
          sockets := JsMap.set (run sv es1).1.sockets socket.id socket.data } ∧
      run sv (es1 ++ Event.disconnecting socket.id :: es2) =
        ((run (step (run sv es1).1 (Event.disconnecting socket.id)).1 es2).1,
          (run sv es1).2 ++
            ([Effect.log ("👋 " ++ orElse socket.data.username "Unknown" ++ " left room: " ++ r),
              Effect.emit (Target.roomExcept r socket.id) "playerLeft" (Payload.str socket.id),
              Effect.playersDelete r socket.id] ++
            (if JsMap.size (JsMap.delete room.players socket.id) = 0 then
              [Effect.roomsDelete r, Effect.log ("🗑️ Room " ++ r ++ " deleted (empty)")]
            else [])) ++
          (run (step (run sv es1).1 (Event.disconnecting socket.id)).1 es2).2) := by
  have ht : truthy socket.data.roomId = some r := by rw [hr]; exact truthy_some r hne
  have hroom := onDisconnecting_room rooms socket r room ht hg
  have hB : (atBroadcast rooms socket r).rooms = rooms := rfl
  have hBt : (atBroadcast rooms socket r).trace =
      [Effect.log ("👋 " ++ orElse socket.data.username "Unknown" ++ " left room: " ++ r),
        Effect.emit (Target.roomExcept r socket.id) "playerLeft" (Payload.str socket.id)] := rfl
  have hR : (atRemoval rooms socket r room).rooms =
      JsMap.set rooms r { room with players := JsMap.delete room.players socket.id } := rfl
  have hRt : (atRemoval rooms socket r room).trace =
      (atBroadcast rooms socket r).trace ++ [Effect.playersDelete r socket.id] := rfl
  refine ⟨⟨hB, by rw [hB]; exact hg, hBt⟩,
    ⟨hR, by rw [hR]; exact JsMap.get_set_self _ _ _, JsMap.has_delete_self _ _, hRt⟩,
    ?_, ?_, ?_, ?_⟩
  · intro hs
    rw [hroom, if_neg hs]
    rfl
  · intro hs
    rw [hroom, if_pos hs]
    refine ⟨JsMap.delete_set_self _ _ _, ?_, rfl, rfl⟩
    show JsMap.has (JsMap.delete (JsMap.set rooms r _) r) r = false
    exact JsMap.has_delete_self _ _
  · rw [hroom]
    split <;> simp [actions]
  · intro sv es1 es2 hrooms hsock
    have hstep := step_disconnecting_eq (run sv es1).1 socket.id socket.data hsock
    rw [hrooms] at hstep
    have hsock' : ({ id := socket.id, data := socket.data } : Socket) = socket := rfl
    rw [hsock', hroom] at hstep
    refine ⟨rfl, ?_, ?_⟩
    · rw [hstep]
      by_cases hs : JsMap.size (JsMap.delete room.players socket.id) = 0
      · simp only [if_pos hs]
        rw [JsMap.delete_set_self]
      · simp only [if_neg hs]
    · rw [run_append]
      simp only [run]
      rw [hstep]
      by_cases hs : JsMap.size (JsMap.delete room.players socket.id) = 0
      · simp only [if_pos hs, List.append_assoc, List.cons_append, List.nil_append]
      · simp only [if_neg hs, List.append_assoc, List.cons_append, List.nil_append,
          List.append_nil]

theorem disconnecting_broadcast_before_removal_witness :
    ((atBroadcast exRoomsTwo exSocketY "game123").rooms = exRoomsTwo ∧
      JsMap.get (atBroadcast exRoomsTwo exSocketY "game123").rooms "game123" = some exRoomGame ∧
      (atBroadcast exRoomsTwo exSocketY "game123").trace =
        [Effect.log ("👋 " ++ orElse exSocketY.data.username "Unknown" ++ " left room: "
            ++ "game123"),
          Effect.emit (Target.roomExcept "game123" "Y") "playerLeft" (Payload.str "Y")]) ∧
    JsMap.get (atRemoval exRoomsTwo exSocketY "game123" exRoomGame).rooms "game123" =
      some { exRoomGame with players := JsMap.delete exRoomGame.players "Y" } ∧
    onDisconnecting (start exRoomsTwo exSocketY) =
      atRemoval exRoomsTwo exSocketY "game123" exRoomGame ∧
    (onDisconnecting (start exRoomsLast exSocketY)).rooms = JsMap.delete exRoomsLast "game123" ∧
    JsMap.has (onDisconnecting (start exRoomsLast exSocketY)).rooms "game123" = false ∧
    (step (run exServer [Event.draw "X" exStroke2]).1 (Event.disconnecting "Y")).1 =
      { rooms :=
          if JsMap.size (JsMap.delete exRoomGame.players "Y") = 0 then
            JsMap.delete exRoomsTwo "game123"
          else JsMap.set exRoomsTwo "game123"
            { exRoomGame with players := JsMap.delete exRoomGame.players "Y" },
        sockets := JsMap.set (run exServer [Event.draw "X" exStroke2]).1.sockets "Y"
          exSocketY.data } :=
  ⟨(disconnecting_broadcast_before_removal exRoomsTwo exSocketY "game123" exRoomGame
      rfl (by decide) (by decide)).1,
   (disconnecting_broadcast_before_removal exRoomsTwo exSocketY "game123" exRoomGame
      rfl (by decide) (by decide)).2.1.2.1,
   (disconnecting_broadcast_before_removal exRoomsTwo exSocketY "game123" exRoomGame
      rfl (by decide) (by decide)).2.2.1 (by decide),
   ((disconnecting_broadcast_before_removal exRoomsLast exSocketY "game123"
      { players := [("Y", exBob)], drawingHistory := [exStroke1], currentDrawer := none }
      rfl (by decide) (by decide)).2.2.2.1 (by decide)).1,
   ((disconnecting_broadcast_before_removal exRoomsLast exSocketY "game123"
      { players := [("Y", exBob)], drawingHistory := [exStroke1], currentDrawer := none }
      rfl (by decide) (by decide)).2.2.2.1 (by decide)).2.1,
   ((disconnecting_broadcast_before_removal exRoomsTwo exSocketY "game123" exRoomGame
      rfl (by decide) (by decide)).2.2.2.2.2 exServer [Event.draw "X" exStroke2]
      [Event.disconnect "Y"] (by decide) (by decide)).2.1⟩

end Skribbl
